import Mathlib

/-!
Shallow embedding of the menu-generation and launcher logic of the
tk-blender engine (`python/tk_blender/menu_generation.py` and
`startup.py`), together with theorems settling the specification claims
about that code.

Qt menus are modelled by a store of menu records addressed by numeric
ids: a `QMenu` is a store entry, `addAction`/`addMenu` append an item to
the entry's item list, and submenu items carry the id of the menu they
point to (mutating a submenu through one alias is visible through the
other, as with Qt object references).  Python callables are modelled by
`CbRef` tags, Python dicts keyed by strings by association lists in
insertion order, and `list.sort` / `sorted` (stable, ascending) by
`List.mergeSort` (also stable, ascending).
-/

set_option maxHeartbeats 1000000

namespace TkBlender

/-! ### Python builtins used by the translated code

These are executable models of the Python primitives the source relies
on, written over `List Char` so that every proof obligation reduces in
the kernel: `str.split(sep)` for the one-character separator `"/"`,
string comparison (code-point lexicographic, as Python compares
strings), and `list.sort` / `sorted` — Python's sort is stable and
ascending, and every stable sort computes the same list, so it is
modelled by a stable insertion sort. -/

/-- Python string comparison `a <= b`: lexicographic by code point, a
proper prefix sorting first. -/
def charsLE : List Char → List Char → Bool
  | [], _ => true
  | _ :: _, [] => false
  | a :: as, b :: bs =>
    if a.toNat < b.toNat then true
    else if b.toNat < a.toNat then false
    else charsLE as bs

/-- `a <= b` on strings (Python semantics). -/
def strLE (a b : String) : Bool := charsLE a.data b.data

/-- Insert into a sorted list, before the first element it is `le` to
(this placement is what makes the sort stable, like Python's). -/
def orderedInsertB (le : α → α → Bool) (a : α) : List α → List α
  | [] => [a]
  | b :: l => if le a b then a :: b :: l else b :: orderedInsertB le a l

/-- Stable ascending sort modelling Python `list.sort` / `sorted`. -/
def pySort (le : α → α → Bool) : List α → List α
  | [] => []
  | a :: l => orderedInsertB le a (pySort le l)

/-- Python `str.split(sep)` for a one-character separator: every
occurrence of `sep` ends a field, so `""` yields `[""]`, and adjacent
separators yield empty fields. -/
def splitOnChar (sep : Char) : List Char → List String
  | [] => [""]
  | c :: rest =>
    let r := splitOnChar sep rest
    if c == sep then "" :: r
    else
      match r with
      | h :: t => String.mk (c :: h.data) :: t
      | [] => [String.mk [c]]

/-- `self.name.split("/")`. -/
def pySplitSlash (s : String) : List String := splitOnChar '/' s.data

/-- A reference to a Python callable wired to a menu action: the bound
methods `MenuGenerator._jump_to_sg` / `_jump_to_fs`, or the callback of
an engine command (identified by a tag). -/
inductive CbRef where
  | jumpToSg
  | jumpToFs
  | cmd (id : Nat)
deriving DecidableEq, Repr

/-- The `properties` dict of an engine command.  The keys read by
`menu_generation.py` are `app` (an app object, modelled by an index into
the engine's app table), `type`, `tooltip`, `enable_callback` (a
zero-argument predicate, modelled by the Bool it returns when evaluated
at render time) and `checkable`.  A missing key is `none`. -/
structure Properties where
  app : Option Nat := none
  type : Option String := none
  tooltip : Option String := none
  enableCallback : Option Bool := none
  checkable : Option Bool := none
deriving DecidableEq, Repr

/-- An app object as seen by `AppCommand.get_app_name`
(`properties["app"].display_name`). -/
structure App where
  displayName : String
deriving DecidableEq, Repr

/-- One entry of the `menu_favourites` engine setting. -/
structure Favourite where
  appInstance : String
  name : String
deriving DecidableEq, Repr

/-- One value of the `engine.commands` dict:
`\x7b"properties": ..., "callback": ...\x7d`.  `properties` may be
`None` (modelled by `none`). -/
structure CommandDict where
  properties : Option Properties := none
  callback : CbRef := CbRef.cmd 0
deriving DecidableEq, Repr

/-- The slice of the platform engine consumed by `MenuGenerator`:
`engine.commands` (dict in insertion order), the `menu_favourites`
setting, `engine.apps` (instance name to app object), the app-object
table, `str(engine.context)` and `engine.context.filesystem_locations`. -/
structure Engine where
  commands : List (String × CommandDict) := []
  menuFavourites : List Favourite := []
  apps : List (String × Nat) := []
  appsById : List App := []
  contextName : String := ""
  filesystemLocations : List String := []
deriving Repr

/-- `AppCommand` from `menu_generation.py`: wraps one command of
`engine.commands`, with the mutable `favourite` flag. -/
structure AppCommand where
  name : String
  props : Properties
  callback : CbRef
  favourite : Bool
deriving DecidableEq, Repr

/-- `AppCommand.__init__`: `properties` defaults to `\x7b\x7d` when the
dict stores `None` (`command_dict["properties"] or \x7b\x7d`), and
`favourite` starts out `False`. -/
def AppCommand.ofCommand (name : String) (cd : CommandDict) : AppCommand :=
  { name := name, props := cd.properties.getD {}, callback := cd.callback, favourite := false }

/-- `AppCommand.get_type`: `self.properties.get("type", "default")`. -/
def AppCommand.getType (c : AppCommand) : String :=
  c.props.type.getD ("default")

/-- `AppCommand.get_app_name`: `properties["app"].display_name` when the
`app` key is present, else `None`. -/
def AppCommand.getAppName (engine : Engine) (c : AppCommand) : Option String :=
  c.props.app.map (fun i => (engine.appsById.getD i ⟨""⟩).displayName)

/-- `AppCommand.get_app_instance_name`: scan `engine.apps.items()` for
the entry whose app object is the command's `app` property and return
its instance name; `None` when the command has no `app` property or no
entry matches. -/
def AppCommand.getAppInstanceName (engine : Engine) (c : AppCommand) : Option String :=
  match c.props.app with
  | none => none
  | some appId => (engine.apps.find? (fun p => p.2 == appId)).map (fun p => p.1)

/-- One item of a Qt menu: a separator (`_add_divider`), an action
(`_add_menu_item`, carrying its label, the connected callback and the
`properties` argument whose tooltip/enabled/checkable attributes are set
on the action), or a submenu action (`addMenu`, carrying the id of the
submenu and its title, which is what `QAction.text()` reports). -/
inductive Item where
  | divider
  | action (label : String) (cb : Option CbRef) (props : Option Properties)
  | submenu (id : Nat) (title : String)
deriving DecidableEq, Repr

/-- One `QMenu`: its title, its item list in insertion order, and its
enabled flag (`setEnabled`). -/
structure MenuData where
  title : String
  items : List Item
  enabled : Bool := true
deriving DecidableEq, Repr

/-- The heap of live `QMenu` objects; a menu id is an index into this
list.  Creating a menu appends a record; all mutation goes through ids,
so aliased references (e.g. `self._context_menu` inside the handle) see
each other's updates, as Qt references do. -/
abbrev Store := List MenuData

/-- Default record used for out-of-range lookups (never reached by the
translated code on well-formed stores). -/
def MenuData.default : MenuData := { title := "", items := [], enabled := true }

/-- Look up a menu record by id. -/
def Store.menuD (s : Store) (id : Nat) : MenuData :=
  s.getD id MenuData.default

/-- Append one item to the item list of menu `id`. -/
def Store.appendItem (s : Store) (id : Nat) (it : Item) : Store :=
  s.set id { Store.menuD s id with items := (Store.menuD s id).items ++ [it] }

/-- Create a fresh `QMenu` titled `title` and add it under `parent`
(`QMenu(title=...)` followed by `parent_menu.addMenu(sub_menu)`, i.e.
`MenuGenerator._add_sub_menu`; also `QMenu.addMenu(str)` in the disabled
branch of `create_menu`).  Returns the updated store and the new id. -/
def Store.addMenuTo (s : Store) (title : String) (parent : Nat) : Store × Nat :=
  let id := s.length
  let s := s ++ [{ title := title, items := [], enabled := true }]
  (Store.appendItem s parent (Item.submenu id title), id)

/-- `MenuGenerator._add_divider`: append a separator action. -/
def Store.addDivider (s : Store) (parent : Nat) : Store :=
  Store.appendItem s parent Item.divider

/-- `MenuGenerator._add_menu_item`: append an action with the given
label, connect the callback when one is given, and set the
tooltip/enabled/checkable attributes from `properties` (the attributes
are modelled by carrying the `properties` value on the action). -/
def Store.addMenuItem (s : Store) (name : String) (parent : Nat)
    (callback : Option CbRef) (properties : Option Properties) : Store :=
  Store.appendItem s parent (Item.action name callback properties)

/-- `QMenu.clear()` on menu `id`. -/
def Store.clearMenu (s : Store) (id : Nat) : Store :=
  s.set id { Store.menuD s id with items := [] }

/-- `QMenu.setEnabled` on menu `id`. -/
def Store.setEnabled (s : Store) (id : Nat) (b : Bool) : Store :=
  s.set id { Store.menuD s id with enabled := b }

/-- Modelled from the spec: `AppCommand._find_sub_menu_item` is called
at `menu_generation.py:352` but its definition is not among the source
files (only this call site is).  Per the spec, for each non-final
segment the builder is to "find-or-create a submenu with that label
under the current parent node", reusing an existing submenu with that
label; so this returns the id of the first submenu item of `parent`
whose label matches, if any. -/
def findSubMenuItem (s : Store) (parent : Nat) (label : String) : Option Nat :=
  (Store.menuD s parent).items.findSome? (fun it =>
    match it with
    | Item.submenu id t => if t == label then some id else none
    | _ => none)

/-- One step of the `for item_label in parts[:-1]` loop of
`AppCommand.add_command_to_menu`: reuse the submenu found by
`_find_sub_menu_item`, or create one via `_add_sub_menu`. -/
def segmentStep (sp : Store × Nat) (itemLabel : String) : Store × Nat :=
  match findSubMenuItem sp.1 sp.2 itemLabel with
  | some sub => (sp.1, sub)
  | none => Store.addMenuTo sp.1 itemLabel sp.2

/-- `AppCommand.add_command_to_menu`: split the command name on `/`,
walk/create the submenu chain for the non-final segments, then add the
leaf action (final segment as label) wired to the command's callback and
properties. -/
def AppCommand.addCommandToMenu (c : AppCommand) (s : Store) (menu : Nat) : Store :=
  let parts := pySplitSlash c.name
  let sp := parts.dropLast.foldl segmentStep (s, menu)
  Store.addMenuItem sp.1 (parts.getLastD ("")) sp.2 (some c.callback) (some c.props)

/-- The `MenuGenerator` object: the engine, the menu title, and the
`QMenu` handle created in `__init__` (`none` models a falsy handle, the
case checked at the top of `create_menu`). -/
structure MenuGenerator where
  engine : Engine
  menuName : String
  handle : Option Nat

/-- `MenuGenerator.__init__`: create the handle `QMenu` in a fresh
store. -/
def MenuGenerator.init (engine : Engine) (menuName : String) : MenuGenerator × Store :=
  ({ engine := engine, menuName := menuName, handle := some 0 },
   [{ title := menuName, items := [], enabled := true }])

/-- `MenuGenerator._add_context_menu`: submenu titled `str(ctx)`, a
divider, "Jump to Shotgun", "Jump to File System" only when the context
has filesystem locations, and a trailing divider.  Returns the new store
and the context-menu id. -/
def MenuGenerator.addContextMenu (g : MenuGenerator) (s : Store) (handle : Nat) :
    Store × Nat :=
  let ctxName := g.engine.contextName
  let sp := Store.addMenuTo s ctxName handle
  let ctxMenu := sp.2
  let s := Store.addDivider sp.1 ctxMenu
  let s := Store.addMenuItem s ("Jump to Shotgun") ctxMenu (some CbRef.jumpToSg) none
  let s :=
    if g.engine.filesystemLocations ≠ [] then
      Store.addMenuItem s ("Jump to File System") ctxMenu (some CbRef.jumpToFs) none
    else s
  let s := Store.addDivider s ctxMenu
  (s, ctxMenu)

/-- The match test of the favourites loop of `create_menu`:
`cmd.get_app_instance_name() == app_instance_name and cmd.name == menu_name`. -/
def matchesFav (engine : Engine) (fav : Favourite) (c : AppCommand) : Bool :=
  AppCommand.getAppInstanceName engine c == some fav.appInstance && c.name == fav.name

/-- The inner `for cmd in menu_items` loop of the favourites pass of
`create_menu`, for one favourite: each matching command is rendered into
the handle and its `favourite` flag is set in place (modelled by
rebuilding the command list). -/
def favouriteStep (engine : Engine) (handle : Nat) (acc : Store × List AppCommand)
    (fav : Favourite) : Store × List AppCommand :=
  acc.2.foldl
    (fun (st : Store × List AppCommand) cmd =>
      if matchesFav engine fav cmd then
        (AppCommand.addCommandToMenu cmd st.1 handle, st.2 ++ [{ cmd with favourite := true }])
      else (st.1, st.2 ++ [cmd]))
    (acc.1, [])

/-- Insert a command into the `commands_by_app` dict: append to the
existing key's list or add a new key at the end (Python dict insertion
order). -/
def assocAppend (m : List (String × List AppCommand)) (k : String) (v : AppCommand) :
    List (String × List AppCommand) :=
  if m.any (fun p => p.1 == k) then
    m.map (fun p => if p.1 == k then (p.1, p.2 ++ [v]) else p)
  else m ++ [(k, [v])]

/-- `commands_by_app[app_name]` lookup. -/
def assocGet (m : List (String × List AppCommand)) (k : String) : List AppCommand :=
  ((m.find? (fun p => p.1 == k)).map (fun p => p.2)).getD []

/-- One step of the sectioning loop of `create_menu`: a command of type
`context_menu` is rendered into the context submenu; any other command
is filed under its app display name (or "Other Items") in
`commands_by_app`. -/
def partitionStep (engine : Engine) (ctxMenu : Nat)
    (acc : Store × List (String × List AppCommand)) (cmd : AppCommand) :
    Store × List (String × List AppCommand) :=
  if AppCommand.getType cmd == "context_menu" then
    (AppCommand.addCommandToMenu cmd acc.1 ctxMenu, acc.2)
  else
    let appName := (AppCommand.getAppName engine cmd).getD ("Other Items")
    (acc.1, assocAppend acc.2 appName cmd)

/-- The whole sectioning loop of `create_menu` (starting from an empty
`commands_by_app`). -/
def partitionPass (engine : Engine) (ctxMenu : Nat) (s : Store)
    (items : List AppCommand) : Store × List (String × List AppCommand) :=
  items.foldl (partitionStep engine ctxMenu) (s, [])

/-- Name comparison for `menu_items.sort(key=lambda x: x.name)`. -/
def nameLE (a b : AppCommand) : Bool := strLE a.name b.name

/-- `sorted(commands_by_app.keys())`. -/
def sortedKeys (byApp : List (String × List AppCommand)) : List String :=
  pySort strLE (byApp.map (fun p => p.1))

/-- One iteration of `MenuGenerator._add_app_menu`: a group with more
than one command becomes a submenu holding the group's commands in name
order; a group with exactly one command is added directly to the handle
unless that command is a favourite. -/
def appMenuStep (byApp : List (String × List AppCommand)) (handle : Nat)
    (s : Store) (appName : String) : Store :=
  let cmds := assocGet byApp appName
  if cmds.length > 1 then
    let sp := Store.addMenuTo s appName handle
    (pySort nameLE cmds).foldl
      (fun s cmd => AppCommand.addCommandToMenu cmd s sp.2) sp.1
  else
    match cmds with
    | cmd :: _ =>
      if cmd.favourite then s else AppCommand.addCommandToMenu cmd s handle
    | [] => s

/-- `MenuGenerator._add_app_menu`: process the groups in ascending key
order, then append a trailing divider to the handle. -/
def MenuGenerator.addAppMenu (s : Store) (handle : Nat)
    (byApp : List (String × List AppCommand)) : Store :=
  Store.addDivider ((sortedKeys byApp).foldl (appMenuStep byApp handle) s) handle

/-- The `menu_items` list of `create_menu`: one `AppCommand` per entry
of `engine.commands`, sorted ascending by name. -/
def buildMenuItems (engine : Engine) : List AppCommand :=
  pySort nameLE (engine.commands.map (fun p => AppCommand.ofCommand p.1 p.2))

/-- `MenuGenerator.create_menu`: bail out on a missing handle; clear the
handle; on `disabled` add the single "Sgtk is disabled." submenu and
stop; otherwise build the context menu, dividers, favourites, sections
and app groups exactly in source order. -/
def MenuGenerator.createMenu (g : MenuGenerator) (s : Store) (disabled : Bool) : Store :=
  match g.handle with
  | none => s
  | some handle =>
    let s := Store.clearMenu s handle
    if disabled then
      (Store.addMenuTo s ("Sgtk is disabled.") handle).1
    else
      let s := Store.setEnabled s handle false
      let sc := MenuGenerator.addContextMenu g s handle
      let ctxMenu := sc.2
      let s := Store.addDivider sc.1 handle
      let menuItems := buildMenuItems g.engine
      let sm := g.engine.menuFavourites.foldl (favouriteStep g.engine handle) (s, menuItems)
      let s := Store.addDivider sm.1 handle
      let sp := partitionPass g.engine ctxMenu s sm.2
      let s := MenuGenerator.addAppMenu sp.1 handle sp.2
      Store.setEnabled s handle true

/-! ### Deferred callback wrapper (`Callback` in `menu_generation.py`)

A Python callback's behaviour when invoked is modelled by the value it
produces: `Except.ok ()` for a normal return, `Except.error e` for a
raised exception carrying `e`.  The Qt event loop's pending single-shot
timers are modelled by a task queue, and the engine logger by a list of
entries `(message, attached exception)` — `logger.exception` records the
message together with the current exception's traceback. -/

/-- A Python value, as far as the translated code distinguishes them:
`subprocess.check_output` returns a `str`/`bytes` value, which the code
compares against the `int` 0. -/
inductive PyVal where
  | int (n : Int)
  | str (s : String)
deriving DecidableEq, Repr

/-- Python 3 `==` across these values: values of different types are
never equal (the comparison silently yields `False`). -/
def pyEq : PyVal → PyVal → Bool
  | PyVal.int a, PyVal.int b => a == b
  | PyVal.str a, PyVal.str b => a == b
  | _, _ => false

/-- Python 3 `!=`. -/
def pyNe (a b : PyVal) : Bool := !(pyEq a b)

/-- `Callback.__call__(self, *_)`: whatever arguments the triggering
signal passes are accepted and discarded, and
`QtCore.QTimer.singleShot(0, self._execute_within_exception_trap)`
appends one task for the wrapped callback to the event loop's queue;
nothing is executed now. -/
def Callback.call (callback : Except String Unit) (args : List PyVal)
    (scheduled : List (Except String Unit)) : List (Except String Unit) :=
  let _ := args
  scheduled ++ [callback]

/-- `Callback._execute_within_exception_trap`: run the wrapped callback;
a raised exception is caught, logged through
`tank.platform.current_engine().logger.exception("An exception was
raised from Toolkit")` (message plus traceback of the caught exception),
and not re-raised.  Returns the call's own outcome and the updated
log. -/
def executeWithinExceptionTrap (callback : Except String Unit)
    (log : List (String × Option String)) :
    Except String Unit × List (String × Option String) :=
  match callback with
  | Except.ok () => (Except.ok (), log)
  | Except.error e => (Except.ok (), log ++ [("An exception was raised from Toolkit", some e)])

/-! ### `MenuGenerator._jump_to_fs`

`sys.platform` is passed in as a string; `tank.util.is_linux` /
`is_macos` / `is_windows` are the sgtk helpers testing
`sys.platform.startswith("linux")`, `== "darwin"`, `== "win32"`.
`subprocess.check_output` is modelled by an oracle giving the captured
output (a `str`) of each invocation; the launched argument vectors and
the `logger.error("Failed to launch ...")` calls are accumulated. -/

/-- `tank.util.is_linux`: `sys.platform.startswith("linux")`. -/
def is_linux (system : String) : Bool := ("linux").data.isPrefixOf system.data

/-- `tank.util.is_macos`. -/
def is_macos (system : String) : Bool := system == "darwin"

/-- `tank.util.is_windows`. -/
def is_windows (system : String) : Bool := system == "win32"

/-- The `args` vector built for one `disk_location`, following the
`if is_linux() / elif is_macos() / elif is_windows()` chain; `none` on
an unsupported platform (the `else: raise` branch).  Note the macOS
vector: the source is `['open "%s"', disk_location]`, so the program
token is the literal string `open "%s"` — the `%s` placeholder is never
formatted.  On Windows the source formats
`'"Folder %s"' % disk_location`. -/
def fsArgs (system : String) (disk_location : String) : Option (List String) :=
  if is_linux system then some ["xdg-open", disk_location]
  else if is_macos system then some ["open \"%s\"", disk_location]
  else if is_windows system then some ["cmd.exe", "/C", "start", "\"Folder " ++ disk_location ++ "\""]
  else none

/-- The `for disk_location in paths` loop of `_jump_to_fs`:
accumulates the launched argument vectors and the argument vectors whose
"exit code" test fired the `Failed to launch` log; raises out of the
whole loop on an unsupported platform.  `exit_code` is the value
returned by `subprocess.check_output` — the captured output string —
which the source compares with `!= 0`. -/
def jumpToFsLoop (system : String) (output : List String → String) :
    List String → List (List String) → List (List String) →
    Except String (List (List String) × List (List String))
  | [], launched, failed => Except.ok (launched, failed)
  | disk_location :: rest, launched, failed =>
    match fsArgs system disk_location with
    | none => Except.error ("Platform \x27" ++ system ++ "\x27 is not supported.")
    | some args =>
      let exit_code := PyVal.str (output args)
      let failed := if pyNe exit_code (PyVal.int 0) then failed ++ [args] else failed
      jumpToFsLoop system output rest (launched ++ [args]) failed

/-- `MenuGenerator._jump_to_fs`: iterate the context's filesystem
locations. -/
def jumpToFs (system : String) (locations : List String)
    (output : List String → String) :
    Except String (List (List String) × List (List String)) :=
  jumpToFsLoop system output locations [] []

/-! ### `BlenderLauncher._get_executable_version` (`startup.py`)

The regex `COMPONENT_REGEX_LOOKUP["version"]` is `\d.\d+(.\d*)*`: an
unanchored `re.search` hit exists exactly where a digit is followed by
any non-newline character and another digit (the trailing group can
match empty), and the greedy match then extends to the end of the line;
`re.match` in the directory-listing loops only needs the same test
anchored at the start.  Filesystem access (`os.path.isdir`,
`os.listdir`) is passed in as oracles. -/

/-- `re.search(r"\d.\d+(.\d*)*", s)`: leftmost match, returning
`group(0)` (greedy, so it runs to the end of the line). -/
def versionSearch : List Char → Option (List Char)
  | c1 :: c2 :: c3 :: rest =>
    if c1.isDigit && (c2 != '\n') && c3.isDigit then
      some (c1 :: c2 :: c3 :: rest.takeWhile (fun c => c != '\n'))
    else versionSearch (c2 :: c3 :: rest)
  | _ => none

/-- `re.match(r"\d.\d+(.\d*)*", s)` viewed as a test (anchored at the
start of the string). -/
def versionMatch (s : List Char) : Bool :=
  match s with
  | c1 :: c2 :: c3 :: _ => c1.isDigit && (c2 != '\n') && c3.isDigit
  | _ => false

/-- Python `needle in hay` on strings (substring containment). -/
def containsSubstring (needle : List Char) : List Char → Bool
  | [] => needle.isEmpty
  | c :: t => needle.isPrefixOf (c :: t) || containsSubstring needle t

/-- Join path fields back with `/` (inverse of the split, used to model
`os.path.dirname`). -/
def joinSlash : List String → String
  | [] => ""
  | [x] => x
  | x :: xs => x ++ "/" ++ joinSlash xs

/-- `os.path.dirname` (POSIX behaviour: everything before the final
`/`). -/
def dirnameStr (p : String) : String :=
  joinSlash (pySplitSlash p).dropLast

/-- A raised Python exception, as far as this development needs to tell
them apart. -/
inductive PyExc where
  | nameError (name : String)
deriving DecidableEq, Repr

/-- `BlenderLauncher._get_executable_version(self, exec_path,
default=None)`.  The local names in its scope are `self`, `exec_path`,
`default` and `match`; the macOS branch's first statement (line 290,
`app_dir = executable_path.split('Blender.app')[0] + 'Blender.app'`)
reads the name `executable_path`, which is bound in no enclosing
function scope, so evaluating that branch raises `NameError:
name 'executable_path' is not defined` before anything else in the
branch runs.  The remaining (Linux) branch is translated with the
filesystem supplied as oracles. -/
def getExecutableVersion (fsIsDir : String → Bool) (fsListDir : String → List String)
    (exec_path : String) (default : Option String) : Except PyExc (Option String) :=
  match versionSearch exec_path.data with
  | some m => Except.ok (some (String.mk m))
  | none =>
    if containsSubstring ("Blender.app").data exec_path.data then
      Except.error (PyExc.nameError ("executable_path"))
    else
      let app_dir := dirnameStr exec_path
      if fsIsDir app_dir then
        match (fsListDir app_dir).find? (fun f => versionMatch f.data) with
        | some f => Except.ok (some f)
        | none => Except.ok default
      else Except.ok default

/-! ### Proof-support definitions -/

/-- Follow a chain of labels from `menu` by taking, at each step, the
first submenu item with that label (the find-or-create lookup's notion
of "the" submenu for a segment). -/
def followPath (s : Store) (menu : Nat) : List String → Option Nat
  | [] => some menu
  | label :: rest =>
    match findSubMenuItem s menu label with
    | some sub => followPath s sub rest
    | none => none

/-- An item is well-formed for a store of `n` menus when any submenu id
it carries is in range. -/
def Item.okB (n : Nat) : Item → Bool
  | Item.submenu id _ => decide (id < n)
  | _ => true

/-- A store is well-formed when every submenu item of every menu points
inside the store. -/
def Store.wf (s : Store) : Bool :=
  s.all (fun md => md.items.all (Item.okB s.length))

/-- Store extension: the target has at least the same menus, and each
menu of the source keeps its items as a prefix (items are only ever
appended). -/
def Store.Ext (s s' : Store) : Prop :=
  s.length ≤ s'.length ∧
    ∀ i, i < s.length → (Store.menuD s i).items <+: (Store.menuD s' i).items

/-- The argument vector `_jump_to_fs` builds on a supported platform
(the value wrapped by `fsArgs` whenever one of the three platform tests
holds). -/
def fsArgsF (system : String) (disk_location : String) : List String :=
  if is_linux system then ["xdg-open", disk_location]
  else if is_macos system then ["open \"%s\"", disk_location]
  else ["cmd.exe", "/C", "start", "\"Folder " ++ disk_location ++ "\""]

/-! ### Concrete fixtures used by the claim theorems -/

/-- A fresh one-menu store whose menu 0 plays the handle role. -/
def menuStore0 : Store := [{ title := "menu", items := [], enabled := true }]

/-- A store that already holds an `"Export"` submenu under the handle. -/
def exportStore : Store :=
  [{ title := "menu", items := [Item.submenu 1 "Export"], enabled := true },
   { title := "Export", items := [], enabled := true }]

/-- An engine with one `loader` app instance owning two commands, of
which `"Load..."` is configured as a favourite. -/
def loaderEngine : Engine :=
  { commands :=
      [("Load...", { properties := some { app := some 0 }, callback := CbRef.cmd 1 }),
       ("Publish...", { properties := some { app := some 0 }, callback := CbRef.cmd 2 })],
    menuFavourites := [{ appInstance := "loader", name := "Load..." }],
    apps := [("loader", 0)],
    appsById := [{ displayName := "Loader" }],
    contextName := "Project FX",
    filesystemLocations := [] }

/-- The store produced by a full `create_menu` run over
`loaderEngine`. -/
def loaderRun : Store :=
  MenuGenerator.createMenu (MenuGenerator.init loaderEngine ("Shotgun")).1
    (MenuGenerator.init loaderEngine ("Shotgun")).2 false

/-- An engine whose single command has type `context_menu` and is also
configured as a favourite. -/
def ctxFavEngine : Engine :=
  { commands :=
      [("ctxcmd",
        { properties := some { app := some 0, type := some "context_menu" },
          callback := CbRef.cmd 1 })],
    menuFavourites := [{ appInstance := "app1", name := "ctxcmd" }],
    apps := [("app1", 0)],
    appsById := [{ displayName := "App1" }],
    contextName := "Ctx",
    filesystemLocations := [] }

/-- The store produced by a full `create_menu` run over
`ctxFavEngine`. -/
def ctxFavRun : Store :=
  MenuGenerator.createMenu (MenuGenerator.init ctxFavEngine ("Shotgun")).1
    (MenuGenerator.init ctxFavEngine ("Shotgun")).2 false

/-- A command already marked as a favourite, alone in its app group. -/
def favLoadCmd : AppCommand :=
  { name := "load", props := { app := some 0 }, callback := CbRef.cmd 1, favourite := true }

/-- A second, non-favourite command of the same app group. -/
def pubCmd : AppCommand :=
  { name := "publish", props := { app := some 0 }, callback := CbRef.cmd 2, favourite := false }

/-- The `AppCommand` built from `loaderEngine`'s `"Load..."` entry. -/
def loadCmdA : AppCommand :=
  { name := "Load...", props := { app := some 0 }, callback := CbRef.cmd 1, favourite := false }

/-- Test for action items (used to state that a menu holds no command
entry). -/
def isActionItem : Item → Bool
  | Item.action _ _ _ => true
  | _ => false

/-- A handle store with stale contents, for the disabled-menu claim. -/
def junkStore : Store :=
  [{ title := "menu",
     items := [Item.divider, Item.action ("stale") none none, Item.submenu 1 "old"],
     enabled := true },
   { title := "old", items := [Item.divider], enabled := true }]

/-! ### Store lemmas -/

theorem menuD_lt {s : Store} {i : Nat} (h : i < s.length) : Store.menuD s i = s[i] := by
  simp [Store.menuD, List.getD_eq_getElem?_getD, List.getElem?_eq_getElem h]

theorem menuD_ge {s : Store} {i : Nat} (h : s.length ≤ i) :
    Store.menuD s i = MenuData.default := by
  simp [Store.menuD, List.getD_eq_getElem?_getD, List.getElem?_eq_none h]

theorem menuD_set_self {s : Store} {i : Nat} (a : MenuData) (h : i < s.length) :
    Store.menuD (s.set i a) i = a := by
  simp [Store.menuD, List.getD_eq_getElem?_getD, List.getElem?_set_self h]

theorem menuD_set_ne {s : Store} {i j : Nat} (a : MenuData) (h : i ≠ j) :
    Store.menuD (s.set i a) j = Store.menuD s j := by
  simp [Store.menuD, List.getD_eq_getElem?_getD, List.getElem?_set_ne h]

theorem menuD_append_lt {s : Store} (t : Store) {i : Nat} (h : i < s.length) :
    Store.menuD (s ++ t) i = Store.menuD s i := by
  simp [Store.menuD, List.getD_eq_getElem?_getD, List.getElem?_append_left h]

theorem menuD_concat_self (s : Store) (m : MenuData) :
    Store.menuD (s ++ [m]) s.length = m := by
  simp [Store.menuD, List.getD_eq_getElem?_getD, List.getElem?_concat_length]

theorem length_appendItem (s : Store) (id : Nat) (it : Item) :
    (Store.appendItem s id it).length = s.length := by
  simp [Store.appendItem]

theorem menuD_appendItem_self {s : Store} {id : Nat} (it : Item) (h : id < s.length) :
    Store.menuD (Store.appendItem s id it) id
      = { Store.menuD s id with items := (Store.menuD s id).items ++ [it] } := by
  simp [Store.appendItem, menuD_set_self _ h]

theorem menuD_appendItem_ne {s : Store} {id j : Nat} (it : Item) (h : id ≠ j) :
    Store.menuD (Store.appendItem s id it) j = Store.menuD s j := by
  simp [Store.appendItem, menuD_set_ne _ h]

theorem ext_refl (s : Store) : Store.Ext s s :=
  ⟨Nat.le_refl _, fun _ _ => List.prefix_rfl⟩

theorem ext_trans {s t u : Store} (h1 : Store.Ext s t) (h2 : Store.Ext t u) :
    Store.Ext s u :=
  ⟨Nat.le_trans h1.1 h2.1, fun i hi =>
    List.IsPrefix.trans (h1.2 i hi) (h2.2 i (Nat.lt_of_lt_of_le hi h1.1))⟩

theorem ext_appendItem (s : Store) (id : Nat) (it : Item) :
    Store.Ext s (Store.appendItem s id it) := by
  refine ⟨Nat.le_of_eq (length_appendItem s id it).symm, fun i hi => ?_⟩
  by_cases hij : id = i
  · subst hij
    rw [menuD_appendItem_self it hi]
    exact List.prefix_append _ _
  · rw [menuD_appendItem_ne it hij]

theorem ext_append (s t : Store) : Store.Ext s (s ++ t) := by
  refine ⟨by simp, fun i hi => ?_⟩
  rw [menuD_append_lt t hi]

theorem length_addMenuTo (s : Store) (title : String) (parent : Nat) :
    (Store.addMenuTo s title parent).1.length = s.length + 1 := by
  simp [Store.addMenuTo, length_appendItem]

theorem addMenuTo_id (s : Store) (title : String) (parent : Nat) :
    (Store.addMenuTo s title parent).2 = s.length := rfl

theorem ext_addMenuTo (s : Store) (title : String) (parent : Nat) :
    Store.Ext s (Store.addMenuTo s title parent).1 :=
  ext_trans (ext_append s _) (ext_appendItem _ parent _)

/-! ### Well-formedness lemmas -/

theorem okB_mono {n m : Nat} (h : n ≤ m) {it : Item} (hit : Item.okB n it = true) :
    Item.okB m it = true := by
  cases it with
  | divider => rfl
  | action a b c => rfl
  | submenu id t =>
    simp [Item.okB] at *
    omega

theorem wf_menuD_items {s : Store} (hwf : Store.wf s = true) (i : Nat) :
    ∀ it ∈ (Store.menuD s i).items, Item.okB s.length it = true := by
  intro it hit
  by_cases hi : i < s.length
  · rw [Store.wf, List.all_eq_true] at hwf
    have hmem : Store.menuD s i ∈ s := by
      rw [menuD_lt hi]; exact List.getElem_mem hi
    have := hwf _ hmem
    rw [List.all_eq_true] at this
    exact this it hit
  · rw [menuD_ge (Nat.le_of_not_lt hi)] at hit
    simp [MenuData.default] at hit

theorem find_some_lt {s : Store} {m : Nat} {label : String} {x : Nat}
    (h : findSubMenuItem s m label = some x) : m < s.length := by
  by_contra hm
  rw [findSubMenuItem, menuD_ge (Nat.le_of_not_lt hm)] at h
  simp [MenuData.default] at h

theorem find_lt_of_wf {s : Store} {m : Nat} {label : String} {x : Nat}
    (hwf : Store.wf s = true) (h : findSubMenuItem s m label = some x) :
    x < s.length := by
  rw [findSubMenuItem] at h
  obtain ⟨it, hmem, hf⟩ := List.exists_of_findSome?_eq_some h
  have hok := wf_menuD_items hwf m it hmem
  cases it with
  | divider => simp at hf
  | action _ _ _ => simp at hf
  | submenu id t =>
    simp only [Item.okB, decide_eq_true_eq] at hok
    by_cases hh : t == label
    · simp [hh] at hf
      omega
    · simp [hh] at hf

theorem find_mono {s s' : Store} {m : Nat} {label : String} {x : Nat}
    (hext : Store.Ext s s') (h : findSubMenuItem s m label = some x) :
    findSubMenuItem s' m label = some x := by
  have hm : m < s.length := find_some_lt h
  obtain ⟨t, ht⟩ := hext.2 m hm
  rw [findSubMenuItem] at h ⊢
  rw [← ht, List.findSome?_append, h]
  rfl

theorem followPath_mono {s s' : Store} (hext : Store.Ext s s') :
    ∀ {labels : List String} {m p : Nat},
      followPath s m labels = some p → followPath s' m labels = some p := by
  intro labels
  induction labels with
  | nil => intro m p h; exact h
  | cons label rest ih =>
    intro m p h
    rw [followPath] at h ⊢
    cases hfind : findSubMenuItem s m label with
    | none => rw [hfind] at h; simp at h
    | some sub =>
      rw [hfind] at h
      rw [find_mono hext hfind]
      exact ih h

theorem wf_appendItem {s : Store} {id : Nat} {it : Item} (hwf : Store.wf s = true)
    (hit : Item.okB s.length it = true) :
    Store.wf (Store.appendItem s id it) = true := by
  rw [Store.wf, List.all_eq_true]
  intro md hmd
  rw [length_appendItem]
  rw [List.all_eq_true]
  intro x hx
  rcases List.mem_or_eq_of_mem_set hmd with hmem | heq
  · rw [Store.wf, List.all_eq_true] at hwf
    have := hwf _ hmem
    rw [List.all_eq_true] at this
    exact this x hx
  · subst heq
    simp only [List.mem_append, List.mem_singleton] at hx
    rcases hx with hx | hx
    · exact wf_menuD_items hwf id x hx
    · subst hx; exact hit

theorem wf_concat {s : Store} (hwf : Store.wf s = true) (m : MenuData)
    (hm : m.items = []) : Store.wf (s ++ [m]) = true := by
  rw [Store.wf, List.all_eq_true]
  intro md hmd
  rw [List.all_eq_true]
  intro x hx
  simp only [List.mem_append, List.mem_singleton] at hmd
  rcases hmd with hmd | hmd
  · rw [Store.wf, List.all_eq_true] at hwf
    have := hwf _ hmd
    rw [List.all_eq_true] at this
    exact okB_mono (by simp) (this x hx)
  · subst hmd; rw [hm] at hx; simp at hx

theorem wf_addMenuTo {s : Store} (hwf : Store.wf s = true) (title : String)
    (parent : Nat) : Store.wf (Store.addMenuTo s title parent).1 = true := by
  rw [Store.addMenuTo]
  refine wf_appendItem (wf_concat hwf _ rfl) ?_
  simp [Item.okB]

/-! ### The find-or-create walk of `add_command_to_menu` -/

theorem segmentFold_spec :
    ∀ (labels : List String) (s : Store) (menu : Nat),
      Store.wf s = true → menu < s.length →
      Store.wf (labels.foldl segmentStep (s, menu)).1 = true ∧
      (labels.foldl segmentStep (s, menu)).2 < (labels.foldl segmentStep (s, menu)).1.length ∧
      Store.Ext s (labels.foldl segmentStep (s, menu)).1 ∧
      followPath (labels.foldl segmentStep (s, menu)).1 menu labels
        = some (labels.foldl segmentStep (s, menu)).2 := by
  intro labels
  induction labels with
  | nil =>
    intro s menu hwf hm
    exact ⟨hwf, hm, ext_refl s, rfl⟩
  | cons label rest ih =>
    intro s menu hwf hm
    rw [List.foldl_cons]
    cases hfind : findSubMenuItem s menu label with
    | some sub =>
      have hstep : segmentStep (s, menu) label = (s, sub) := by
        simp [segmentStep, hfind]
      rw [hstep]
      obtain ⟨w1, w2, w3, w4⟩ := ih s sub hwf (find_lt_of_wf hwf hfind)
      refine ⟨w1, w2, w3, ?_⟩
      rw [followPath, find_mono w3 hfind]
      exact w4
    | none =>
      have hstep : segmentStep (s, menu) label = Store.addMenuTo s label menu := by
        simp [segmentStep, hfind]
      rw [hstep]
      have hwf1 : Store.wf (Store.addMenuTo s label menu).1 = true :=
        wf_addMenuTo hwf label menu
      have hlt1 : (Store.addMenuTo s label menu).2 < (Store.addMenuTo s label menu).1.length := by
        rw [addMenuTo_id, length_addMenuTo]; omega
      obtain ⟨w1, w2, w3, w4⟩ := ih (Store.addMenuTo s label menu).1
        (Store.addMenuTo s label menu).2 hwf1 hlt1
      refine ⟨w1, w2, ext_trans (ext_addMenuTo s label menu) w3, ?_⟩
      have hfind1 : findSubMenuItem (Store.addMenuTo s label menu).1 menu label
          = some (Store.addMenuTo s label menu).2 := by
        rw [findSubMenuItem, addMenuTo_id, Store.addMenuTo]
        rw [menuD_appendItem_self _ (by rw [List.length_append]; omega)]
        rw [menuD_append_lt _ hm]
        rw [List.findSome?_append]
        rw [findSubMenuItem] at hfind
        rw [hfind]
        simp
      rw [followPath, find_mono w3 hfind1]
      exact w4

/-- After `add_command_to_menu`, walking the non-final segments from the
target menu reaches a node whose last item is the leaf action. -/
theorem addCommand_follow (c : AppCommand) (s : Store) (menu : Nat)
    (hwf : Store.wf s = true) (hm : menu < s.length) :
    ∃ p pre,
      followPath (AppCommand.addCommandToMenu c s menu) menu
        (pySplitSlash c.name).dropLast = some p ∧
      (Store.menuD (AppCommand.addCommandToMenu c s menu) p).items
        = pre ++ [Item.action ((pySplitSlash c.name).getLastD ("")) (some c.callback)
            (some c.props)] := by
  obtain ⟨w1, w2, w3, w4⟩ := segmentFold_spec (pySplitSlash c.name).dropLast s menu hwf hm
  rw [AppCommand.addCommandToMenu]
  refine ⟨((pySplitSlash c.name).dropLast.foldl segmentStep (s, menu)).2,
    (Store.menuD ((pySplitSlash c.name).dropLast.foldl segmentStep (s, menu)).1
      ((pySplitSlash c.name).dropLast.foldl segmentStep (s, menu)).2).items, ?_, ?_⟩
  · exact followPath_mono (ext_appendItem _ _ _) w4
  · rw [Store.addMenuItem, menuD_appendItem_self _ w2]

theorem foldl_of_followPath :
    ∀ (labels : List String) (s : Store) (menu p : Nat),
      followPath s menu labels = some p →
      labels.foldl segmentStep (s, menu) = (s, p) := by
  intro labels
  induction labels with
  | nil =>
    intro s menu p h
    rw [followPath] at h
    cases h
    rfl
  | cons label rest ih =>
    intro s menu p h
    rw [followPath] at h
    cases hfind : findSubMenuItem s menu label with
    | none => rw [hfind] at h; simp at h
    | some sub =>
      rw [hfind] at h
      rw [List.foldl_cons]
      have hstep : segmentStep (s, menu) label = (s, sub) := by
        simp [segmentStep, hfind]
      rw [hstep]
      exact ih s sub p h

/-- When the whole submenu chain already exists, `add_command_to_menu`
reuses it: no submenu is created and the store only gains the leaf
action, appended to the chain's final node. -/
theorem addCommand_reuse (c : AppCommand) (s : Store) (menu p : Nat)
    (h : followPath s menu (pySplitSlash c.name).dropLast = some p) :
    AppCommand.addCommandToMenu c s menu
      = Store.appendItem s p (Item.action ((pySplitSlash c.name).getLastD (""))
          (some c.callback) (some c.props)) := by
  rw [AppCommand.addCommandToMenu, foldl_of_followPath _ s menu p h]
  rfl

/-! ### Order and sort lemmas -/

theorem charsLE_cons_iff (x y : Char) (xs ys : List Char) :
    charsLE (x :: xs) (y :: ys) = true
      ↔ (x.toNat < y.toNat ∨ (x.toNat = y.toNat ∧ charsLE xs ys = true)) := by
  rw [charsLE]
  by_cases h1 : x.toNat < y.toNat
  · simp [h1]
  · by_cases h2 : y.toNat < x.toNat
    · simp [h1, h2]
      omega
    · have hxy : x.toNat = y.toNat := by omega
      simp [h1, h2, hxy]

theorem charsLE_total : ∀ (a b : List Char), charsLE a b = true ∨ charsLE b a = true
  | [], _ => Or.inl rfl
  | _ :: _, [] => Or.inr rfl
  | x :: xs, y :: ys => by
    rcases Nat.lt_trichotomy x.toNat y.toNat with h | h | h
    · exact Or.inl ((charsLE_cons_iff x y xs ys).mpr (Or.inl h))
    · rcases charsLE_total xs ys with hr | hr
      · exact Or.inl ((charsLE_cons_iff x y xs ys).mpr (Or.inr ⟨h, hr⟩))
      · exact Or.inr ((charsLE_cons_iff y x ys xs).mpr (Or.inr ⟨h.symm, hr⟩))
    · exact Or.inr ((charsLE_cons_iff y x ys xs).mpr (Or.inl h))

theorem charsLE_trans : ∀ (a b c : List Char),
    charsLE a b = true → charsLE b c = true → charsLE a c = true
  | [], _, _, _, _ => rfl
  | _ :: _, [], _, hab, _ => by simp [charsLE] at hab
  | _ :: _, _ :: _, [], _, hbc => by simp [charsLE] at hbc
  | x :: xs, y :: ys, z :: zs, hab, hbc => by
    rw [charsLE_cons_iff] at hab hbc ⊢
    rcases hab with hab | ⟨hab1, hab2⟩
    · rcases hbc with hbc | ⟨hbc1, hbc2⟩
      · exact Or.inl (Nat.lt_trans hab hbc)
      · exact Or.inl (hbc1 ▸ hab)
    · rcases hbc with hbc | ⟨hbc1, hbc2⟩
      · exact Or.inl (hab1 ▸ hbc)
      · exact Or.inr ⟨hab1.trans hbc1, charsLE_trans xs ys zs hab2 hbc2⟩

theorem strLE_total (a b : String) : strLE a b = true ∨ strLE b a = true :=
  charsLE_total a.data b.data

theorem strLE_trans {a b c : String} (h1 : strLE a b = true) (h2 : strLE b c = true) :
    strLE a c = true :=
  charsLE_trans a.data b.data c.data h1 h2

theorem nameLE_total (a b : AppCommand) : nameLE a b = true ∨ nameLE b a = true :=
  strLE_total a.name b.name

theorem nameLE_trans {a b c : AppCommand} (h1 : nameLE a b = true)
    (h2 : nameLE b c = true) : nameLE a c = true :=
  strLE_trans h1 h2

theorem orderedInsertB_perm (le : α → α → Bool) (a : α) :
    ∀ (l : List α), List.Perm (orderedInsertB le a l) (a :: l)
  | [] => List.Perm.refl _
  | b :: t => by
    rw [orderedInsertB]
    by_cases h : le a b
    · simp [h]
    · simp only [h, if_false]
      exact ((orderedInsertB_perm le a t).cons b).trans (List.Perm.swap a b t)

theorem pySort_perm (le : α → α → Bool) :
    ∀ (l : List α), List.Perm (pySort le l) l
  | [] => List.Perm.refl _
  | a :: l =>
    (orderedInsertB_perm le a (pySort le l)).trans ((pySort_perm le l).cons a)

theorem mem_pySort {le : α → α → Bool} {l : List α} {a : α} :
    a ∈ pySort le l ↔ a ∈ l :=
  (pySort_perm le l).mem_iff

theorem pairwise_orderedInsertB (le : α → α → Bool)
    (total : ∀ a b, le a b = true ∨ le b a = true)
    (trans : ∀ a b c, le a b = true → le b c = true → le a c = true) (a : α) :
    ∀ (l : List α), List.Pairwise (fun x y => le x y = true) l →
      List.Pairwise (fun x y => le x y = true) (orderedInsertB le a l)
  | [], _ => List.pairwise_singleton _ a
  | b :: t, h => by
    rw [List.pairwise_cons] at h
    rw [orderedInsertB]
    by_cases hab : le a b
    · rw [if_pos hab]
      rw [List.pairwise_cons]
      refine ⟨?_, List.Pairwise.cons h.1 h.2⟩
      intro x hx
      rcases List.mem_cons.mp hx with hx | hx
      · subst hx; exact hab
      · exact trans a b x hab (h.1 x hx)
    · rw [if_neg hab]
      rw [List.pairwise_cons]
      have hba : le b a = true := by
        rcases total a b with ht | ht
        · exact absurd ht hab
        · exact ht
      refine ⟨?_, pairwise_orderedInsertB le total trans a t h.2⟩
      intro x hx
      rcases List.mem_cons.mp ((orderedInsertB_perm le a t).mem_iff.mp hx) with hx | hx
      · subst hx; exact hba
      · exact h.1 x hx

theorem pairwise_pySort (le : α → α → Bool)
    (total : ∀ a b, le a b = true ∨ le b a = true)
    (trans : ∀ a b c, le a b = true → le b c = true → le a c = true) :
    ∀ (l : List α), List.Pairwise (fun x y => le x y = true) (pySort le l)
  | [] => List.Pairwise.nil
  | a :: l =>
    pairwise_orderedInsertB le total trans a (pySort le l)
      (pairwise_pySort le total trans l)

/-! ### Characterization of the favourites pass -/

theorem favouriteStep_aux (engine : Engine) (handle : Nat) (fav : Favourite) :
    ∀ (items : List AppCommand) (s : Store) (done : List AppCommand),
      items.foldl
        (fun (st : Store × List AppCommand) cmd =>
          if matchesFav engine fav cmd then
            (AppCommand.addCommandToMenu cmd st.1 handle,
             st.2 ++ [{ cmd with favourite := true }])
          else (st.1, st.2 ++ [cmd]))
        (s, done)
      = ((items.filter (matchesFav engine fav)).foldl
           (fun st c => AppCommand.addCommandToMenu c st handle) s,
         done ++ items.map
           (fun c => if matchesFav engine fav c then { c with favourite := true } else c)) := by
  intro items
  induction items with
  | nil => intro s done; simp
  | cons c rest ih =>
    intro s done
    rw [List.foldl_cons, List.filter_cons, List.map_cons]
    by_cases hc : matchesFav engine fav c
    · rw [if_pos hc, if_pos hc, hc]
      rw [ih]
      simp
    · simp only [Bool.not_eq_true] at hc
      simp only [hc, Bool.false_eq_true, if_false]
      rw [ih]
      simp

/-- The favourites pass for one favourite renders exactly the matching
commands (in list order) into the handle and marks exactly those
commands as favourites. -/
theorem favouriteStep_eq (engine : Engine) (handle : Nat) (fav : Favourite)
    (s : Store) (items : List AppCommand) :
    favouriteStep engine handle (s, items) fav
      = ((items.filter (matchesFav engine fav)).foldl
           (fun st c => AppCommand.addCommandToMenu c st handle) s,
         items.map
           (fun c => if matchesFav engine fav c then { c with favourite := true } else c)) := by
  rw [favouriteStep, favouriteStep_aux]
  simp

/-! ### Characterization of the sectioning pass -/

theorem partitionFold_eq (engine : Engine) (ctxMenu : Nat) :
    ∀ (items : List AppCommand) (s : Store) (groups : List (String × List AppCommand)),
      items.foldl (partitionStep engine ctxMenu) (s, groups)
        = ((items.filter (fun c => AppCommand.getType c == "context_menu")).foldl
             (fun st c => AppCommand.addCommandToMenu c st ctxMenu) s,
           (items.filter (fun c => !(AppCommand.getType c == "context_menu"))).foldl
             (fun g c =>
               assocAppend g ((AppCommand.getAppName engine c).getD ("Other Items")) c)
             groups) := by
  intro items
  induction items with
  | nil => intro s groups; simp
  | cons c rest ih =>
    intro s groups
    rw [List.foldl_cons, List.filter_cons, List.filter_cons]
    by_cases hc : AppCommand.getType c == "context_menu"
    · have hstep : partitionStep engine ctxMenu (s, groups) c
          = (AppCommand.addCommandToMenu c s ctxMenu, groups) := by
        rw [partitionStep, if_pos hc]
      rw [hstep, hc, ih]
      simp
    · have hstep : partitionStep engine ctxMenu (s, groups) c
          = (s, assocAppend groups ((AppCommand.getAppName engine c).getD ("Other Items")) c) := by
        rw [partitionStep, if_neg hc]
      rw [hstep, ih]
      simp only [hc]
      simp

/-- The sectioning pass renders exactly the `context_menu`-typed
commands, in order, into the context submenu, and groups exactly the
others. -/
theorem partitionPass_eq (engine : Engine) (ctxMenu : Nat) (s : Store)
    (items : List AppCommand) :
    partitionPass engine ctxMenu s items
      = ((items.filter (fun c => AppCommand.getType c == "context_menu")).foldl
           (fun st c => AppCommand.addCommandToMenu c st ctxMenu) s,
         (items.filter (fun c => !(AppCommand.getType c == "context_menu"))).foldl
           (fun g c =>
             assocAppend g ((AppCommand.getAppName engine c).getD ("Other Items")) c)
           []) :=
  partitionFold_eq engine ctxMenu items s []

theorem mem_assocAppend {m : List (String × List AppCommand)} {k : String}
    {v : AppCommand} {n : String} {g : List AppCommand} {c : AppCommand}
    (hg : (n, g) ∈ assocAppend m k v) (hc : c ∈ g) :
    (∃ g', (n, g') ∈ m ∧ c ∈ g') ∨ c = v := by
  rw [assocAppend] at hg
  by_cases hany : m.any (fun p => p.1 == k)
  · rw [if_pos hany] at hg
    obtain ⟨p, hp, he⟩ := List.mem_map.mp hg
    by_cases hpk : p.1 == k
    · rw [if_pos hpk] at he
      have hn : p.1 = n := congrArg Prod.fst he
      have hgl : p.2 ++ [v] = g := congrArg Prod.snd he
      rcases List.mem_append.mp (hgl ▸ hc) with hcc | hcc
      · exact Or.inl ⟨p.2, by rw [← hn]; exact hp, hcc⟩
      · exact Or.inr (List.mem_singleton.mp hcc)
    · rw [if_neg hpk] at he
      exact Or.inl ⟨g, he ▸ hp, hc⟩
  · rw [if_neg hany] at hg
    rcases List.mem_append.mp hg with hgm | hgm
    · exact Or.inl ⟨g, hgm, hc⟩
    · have : (n, g) = (k, [v]) := List.mem_singleton.mp hgm
      have hgl : g = [v] := congrArg Prod.snd this
      exact Or.inr (List.mem_singleton.mp (hgl ▸ hc))

theorem groupFold_invariant (label : AppCommand → String)
    (P : AppCommand → Prop) :
    ∀ (items : List AppCommand) (groups : List (String × List AppCommand)),
      (∀ n g c, (n, g) ∈ groups → c ∈ g → P c) →
      (∀ c ∈ items, P c) →
      ∀ n g c,
        (n, g) ∈ items.foldl (fun g c => assocAppend g (label c) c) groups →
        c ∈ g → P c := by
  intro items
  induction items with
  | nil => intro groups hg _ n g c hmem hc; exact hg n g c hmem hc
  | cons x rest ih =>
    intro groups hg hitems n g c hmem hc
    rw [List.foldl_cons] at hmem
    refine ih (assocAppend groups (label x) x) ?_ (fun c hc => hitems c (List.mem_cons_of_mem x hc)) n g c hmem hc
    intro n' g' c' hmem' hc'
    rcases mem_assocAppend hmem' hc' with ⟨g'', hg'', hc''⟩ | he
    · exact hg n' g'' c' hg'' hc''
    · exact he ▸ hitems x (List.mem_cons_self x rest)

/-- No group built by the sectioning pass contains a command of type
`context_menu`. -/
theorem partitionPass_groups_no_ctx (engine : Engine) (ctxMenu : Nat) (s : Store)
    (items : List AppCommand) (n : String) (g : List AppCommand) (c : AppCommand)
    (hmem : (n, g) ∈ (partitionPass engine ctxMenu s items).2) (hc : c ∈ g) :
    AppCommand.getType c ≠ "context_menu" := by
  rw [partitionPass_eq] at hmem
  refine groupFold_invariant _ (fun c => AppCommand.getType c ≠ "context_menu") _ [] ?_ ?_ n g c hmem hc
  · intro n g c hmem'; simp at hmem'
  · intro c hcf
    have := List.of_mem_filter hcf
    simpa using this

/-! ### `_add_app_menu` lemmas -/

theorem sortedKeys_singleton (name : String) (cmds : List AppCommand) :
    sortedKeys [(name, cmds)] = [name] := rfl

theorem assocGet_singleton (name : String) (cmds : List AppCommand) :
    assocGet [(name, cmds)] name = cmds := by
  simp [assocGet]

/-- A single-command group whose command is a favourite contributes
nothing: `_add_app_menu` only appends the trailing divider. -/
theorem addAppMenu_single_fav (s : Store) (handle : Nat) (name : String)
    (cmd : AppCommand) (hfav : cmd.favourite = true) :
    MenuGenerator.addAppMenu s handle [(name, [cmd])] = Store.addDivider s handle := by
  rw [MenuGenerator.addAppMenu, sortedKeys_singleton, List.foldl_cons, List.foldl_nil]
  rw [appMenuStep, assocGet_singleton]
  simp [hfav]

/-- A single-command group whose command is not a favourite is rendered
directly into the handle. -/
theorem addAppMenu_single_nonfav (s : Store) (handle : Nat) (name : String)
    (cmd : AppCommand) (hfav : cmd.favourite = false) :
    MenuGenerator.addAppMenu s handle [(name, [cmd])]
      = Store.addDivider (AppCommand.addCommandToMenu cmd s handle) handle := by
  rw [MenuGenerator.addAppMenu, sortedKeys_singleton, List.foldl_cons, List.foldl_nil]
  rw [appMenuStep, assocGet_singleton]
  simp [hfav]

/-- A group with more than one command becomes a submenu (created at id
`s.length`) into which all of the group's commands are rendered in name
order — the `favourite` flag is not consulted. -/
theorem addAppMenu_multi (s : Store) (handle : Nat) (name : String)
    (cmds : List AppCommand) (h : cmds.length > 1) :
    MenuGenerator.addAppMenu s handle [(name, cmds)]
      = Store.addDivider
          ((pySort nameLE cmds).foldl
            (fun st c => AppCommand.addCommandToMenu c st s.length)
            (Store.addMenuTo s name handle).1)
          handle := by
  rw [MenuGenerator.addAppMenu, sortedKeys_singleton, List.foldl_cons, List.foldl_nil]
  rw [appMenuStep, assocGet_singleton]
  rw [if_pos h]
  rfl

/-- Rendering a list of slash-free-named commands into a target menu
appends one action per command, in order. -/
theorem foldl_render_flat (target : Nat) :
    ∀ (cs : List AppCommand) (st : Store),
      (∀ c ∈ cs, pySplitSlash c.name = [c.name]) → target < st.length →
      ((cs.foldl (fun st c => AppCommand.addCommandToMenu c st target) st).length
          = st.length ∧
       Store.menuD (cs.foldl (fun st c => AppCommand.addCommandToMenu c st target) st) target
        = { Store.menuD st target with
            items := (Store.menuD st target).items
              ++ cs.map (fun c => Item.action c.name (some c.callback) (some c.props)) }) := by
  intro cs
  induction cs with
  | nil =>
    intro st hsf ht
    constructor
    · rfl
    · simp
  | cons c rest ih =>
    intro st hsf ht
    have hc : pySplitSlash c.name = [c.name] := hsf c (List.mem_cons_self c rest)
    have hrender : AppCommand.addCommandToMenu c st target
        = Store.appendItem st target (Item.action c.name (some c.callback) (some c.props)) := by
      have := addCommand_reuse c st target target (by rw [hc]; rfl)
      rw [this, hc]
      rfl
    rw [List.foldl_cons, hrender]
    have hlen : (Store.appendItem st target
        (Item.action c.name (some c.callback) (some c.props))).length = st.length :=
      length_appendItem st target _
    obtain ⟨ihlen, ihmenu⟩ := ih (Store.appendItem st target _)
      (fun d hd => hsf d (List.mem_cons_of_mem c hd)) (by rw [hlen]; exact ht)
    constructor
    · rw [ihlen, hlen]
    · rw [ihmenu, menuD_appendItem_self _ ht]
      simp

/-- The submenu created for a multi-command group carries the group
name as its title and holds one action per command, in name order —
favourites included. -/
theorem addAppMenu_multi_items (s : Store) (handle : Nat) (name : String)
    (cmds : List AppCommand) (hh : handle < s.length) (h : cmds.length > 1)
    (hsf : ∀ c ∈ cmds, pySplitSlash c.name = [c.name]) :
    Store.menuD (MenuGenerator.addAppMenu s handle [(name, cmds)]) s.length
      = { title := name,
          items := (pySort nameLE cmds).map
            (fun c => Item.action c.name (some c.callback) (some c.props)),
          enabled := true } := by
  rw [addAppMenu_multi s handle name cmds h]
  have hstart : Store.menuD (Store.addMenuTo s name handle).1 s.length
      = { title := name, items := [], enabled := true } := by
    rw [Store.addMenuTo]
    rw [menuD_appendItem_ne _ (Nat.ne_of_lt hh)]
    rw [menuD_concat_self]
  have hlen1 : s.length < (Store.addMenuTo s name handle).1.length := by
    rw [length_addMenuTo]; omega
  obtain ⟨_, hmenu⟩ := foldl_render_flat s.length (pySort nameLE cmds)
    (Store.addMenuTo s name handle).1
    (fun c hc => hsf c (mem_pySort.mp hc)) hlen1
  rw [Store.addDivider, menuD_appendItem_ne _ (Nat.ne_of_lt hh)]
  rw [hmenu, hstart]
  simp

/-! ### `create_menu` disabled-branch lemmas -/

theorem length_clearMenu (s : Store) (id : Nat) :
    (Store.clearMenu s id).length = s.length := by
  simp [Store.clearMenu]

theorem menuD_clearMenu_self {s : Store} {id : Nat} (h : id < s.length) :
    Store.menuD (Store.clearMenu s id) id = { Store.menuD s id with items := [] } := by
  simp [Store.clearMenu, menuD_set_self _ h]

/-! ### `_jump_to_fs` lemmas -/

theorem pyNe_str_int (s : String) (n : Int) : pyNe (PyVal.str s) (PyVal.int n) = true := rfl

theorem fsArgs_eq_some {system : String}
    (h : is_linux system = true ∨ is_macos system = true ∨ is_windows system = true)
    (loc : String) : fsArgs system loc = some (fsArgsF system loc) := by
  rw [fsArgs, fsArgsF]
  by_cases h1 : is_linux system
  · simp [h1]
  · by_cases h2 : is_macos system
    · simp [h1, h2]
    · by_cases h3 : is_windows system
      · simp [h1, h2, h3]
      · rcases h with h | h | h
        · exact absurd h h1
        · exact absurd h h2
        · exact absurd h h3

theorem jumpToFsLoop_supported {system : String} (output : List String → String)
    (h : is_linux system = true ∨ is_macos system = true ∨ is_windows system = true) :
    ∀ (locations : List String) (launched failed : List (List String)),
      jumpToFsLoop system output locations launched failed
        = Except.ok (launched ++ locations.map (fsArgsF system),
                     failed ++ locations.map (fsArgsF system)) := by
  intro locations
  induction locations with
  | nil => intro launched failed; simp [jumpToFsLoop]
  | cons loc rest ih =>
    intro launched failed
    rw [jumpToFsLoop, fsArgs_eq_some h loc]
    simp only [pyNe_str_int, if_true]
    rw [ih (launched ++ [fsArgsF system loc]) (failed ++ [fsArgsF system loc])]
    simp

theorem jumpToFs_supported {system : String} (locations : List String)
    (output : List String → String)
    (h : is_linux system = true ∨ is_macos system = true ∨ is_windows system = true) :
    jumpToFs system locations output
      = Except.ok (locations.map (fsArgsF system), locations.map (fsArgsF system)) := by
  rw [jumpToFs, jumpToFsLoop_supported output h locations [] []]
  simp

theorem jumpToFs_unsupported {system : String} (output : List String → String)
    (loc : String) (rest : List String)
    (h1 : is_linux system = false) (h2 : is_macos system = false)
    (h3 : is_windows system = false) :
    jumpToFs system (loc :: rest) output
      = Except.error ("Platform \x27" ++ system ++ "\x27 is not supported.") := by
  rw [jumpToFs, jumpToFsLoop]
  have hargs : fsArgs system loc = none := by
    rw [fsArgs]
    simp [h1, h2, h3]
  rw [hargs]

/-! ### Claim theorems -/

/-- Claim C1: `AppCommand.add_command_to_menu` splits the command name
on `/`, find-or-creates one nested submenu per non-final segment under
the current parent (reusing an existing submenu with that label), and
attaches the leaf action labeled with the final segment inside the
innermost submenu.  First conjunct: on any well-formed store, following
the non-final segments from the target menu reaches a node whose last
item is the leaf action.  Second conjunct: when the whole submenu chain
already exists it is reused — the store changes only by the appended
leaf action.  Third conjunct: a command named
`"Export/Geometry/Alembic"` on a fresh menu produces two nested
submenus labeled `"Export"` then `"Geometry"` with leaf action
`"Alembic"` inside the second. -/
theorem C1_add_command_path_placement :
    (∀ (c : AppCommand) (s : Store) (menu : Nat),
      Store.wf s = true → menu < s.length →
      ∃ p pre,
        followPath (AppCommand.addCommandToMenu c s menu) menu
          (pySplitSlash c.name).dropLast = some p ∧
        (Store.menuD (AppCommand.addCommandToMenu c s menu) p).items
          = pre ++ [Item.action ((pySplitSlash c.name).getLastD ("")) (some c.callback)
              (some c.props)]) ∧
    (∀ (c : AppCommand) (s : Store) (menu p : Nat),
      followPath s menu (pySplitSlash c.name).dropLast = some p →
      AppCommand.addCommandToMenu c s menu
        = Store.appendItem s p (Item.action ((pySplitSlash c.name).getLastD (""))
            (some c.callback) (some c.props))) ∧
    AppCommand.addCommandToMenu
        { name := "Export/Geometry/Alembic", props := {}, callback := CbRef.cmd 0,
          favourite := false }
        menuStore0 0
      = [{ title := "menu", items := [Item.submenu 1 "Export"], enabled := true },
         { title := "Export", items := [Item.submenu 2 "Geometry"], enabled := true },
         { title := "Geometry",
           items := [Item.action ("Alembic") (some (CbRef.cmd 0)) (some {})],
           enabled := true }] :=
  ⟨addCommand_follow, addCommand_reuse, by decide⟩

/-- Witness for C1: both quantified conjuncts applied at concrete
inputs, hypotheses discharged by evaluation. -/
theorem C1_add_command_path_placement_witness :
    Store.wf menuStore0 = true ∧ 0 < menuStore0.length ∧
    (∃ p pre,
      followPath
        (AppCommand.addCommandToMenu
          { name := "Apps/Publish", props := {}, callback := CbRef.cmd 3, favourite := false }
          menuStore0 0) 0
        (pySplitSlash ("Apps/Publish")).dropLast = some p ∧
      (Store.menuD
        (AppCommand.addCommandToMenu
          { name := "Apps/Publish", props := {}, callback := CbRef.cmd 3, favourite := false }
          menuStore0 0) p).items
        = pre ++ [Item.action ((pySplitSlash ("Apps/Publish")).getLastD (""))
            (some (CbRef.cmd 3)) (some {})]) ∧
    followPath exportStore 0 (pySplitSlash ("Export/New")).dropLast = some 1 ∧
    AppCommand.addCommandToMenu
        { name := "Export/New", props := {}, callback := CbRef.cmd 4, favourite := false }
        exportStore 0
      = Store.appendItem exportStore 1
          (Item.action ((pySplitSlash ("Export/New")).getLastD ("")) (some (CbRef.cmd 4))
            (some {})) :=
  ⟨by decide, by decide,
   C1_add_command_path_placement.1
     { name := "Apps/Publish", props := {}, callback := CbRef.cmd 3, favourite := false }
     menuStore0 0 (by decide) (by decide),
   by decide,
   C1_add_command_path_placement.2.1
     { name := "Export/New", props := {}, callback := CbRef.cmd 4, favourite := false }
     exportStore 0 1 (by decide)⟩

/-- Counterexample to claim C2: with favourite `(loader, "Load...")` and
a two-command `Loader` group, the full `create_menu` run renders
`"Load..."` both in the top-level favourites section (index 2 of the
handle) and again inside the `"Loader"` app submenu (menu 2) — the
favourite is not excluded from the app-grouped section. -/
theorem C2_favourite_not_excluded_counterexample :
    (Store.menuD loaderRun 0).items
      = [Item.submenu 1 ("Project FX"), Item.divider,
         Item.action ("Load...") (some (CbRef.cmd 1)) (some { app := some 0 }),
         Item.divider, Item.submenu 2 ("Loader"), Item.divider] ∧
    (Store.menuD loaderRun 2).items
      = [Item.action ("Load...") (some (CbRef.cmd 1)) (some { app := some 0 }),
         Item.action ("Publish...") (some (CbRef.cmd 2)) (some { app := some 0 })] := by
  constructor
  · decide
  · decide

/-- Claim C2 (amended): every favourites entry renders each matching
command into the top-level menu and marks it consumed; a consumed
favourite is excluded from the app-grouped sections only when its group
has exactly one command — a group with more than one command renders
all of its commands, favourites included, inside the app submenu. -/
theorem C2_favourites_amended :
    (∀ (engine : Engine) (handle : Nat) (fav : Favourite) (s : Store)
        (items : List AppCommand),
      favouriteStep engine handle (s, items) fav
        = ((items.filter (matchesFav engine fav)).foldl
             (fun st c => AppCommand.addCommandToMenu c st handle) s,
           items.map
             (fun c => if matchesFav engine fav c then { c with favourite := true } else c))) ∧
    (∀ (s : Store) (handle : Nat) (name : String) (cmd : AppCommand),
      cmd.favourite = true →
      MenuGenerator.addAppMenu s handle [(name, [cmd])] = Store.addDivider s handle) ∧
    (∀ (s : Store) (handle : Nat) (name : String) (cmds : List AppCommand) (c : AppCommand),
      handle < s.length → cmds.length > 1 →
      (∀ d ∈ cmds, pySplitSlash d.name = [d.name]) → c ∈ cmds →
      Item.action c.name (some c.callback) (some c.props)
        ∈ (Store.menuD (MenuGenerator.addAppMenu s handle [(name, cmds)]) s.length).items) := by
  refine ⟨favouriteStep_eq, addAppMenu_single_fav, ?_⟩
  intro s handle name cmds c hh hlen hsf hc
  rw [addAppMenu_multi_items s handle name cmds hh hlen hsf]
  simp only [List.mem_map]
  exact ⟨c, mem_pySort.mpr hc, rfl⟩

/-- Witness for C2 (amended): the single-favourite-group skip and the
multi-command-group inclusion applied at concrete inputs. -/
theorem C2_favourites_amended_witness :
    favLoadCmd.favourite = true ∧
    MenuGenerator.addAppMenu menuStore0 0 [("Loader", [favLoadCmd])]
      = Store.addDivider menuStore0 0 ∧
    Item.action favLoadCmd.name (some favLoadCmd.callback) (some favLoadCmd.props)
      ∈ (Store.menuD (MenuGenerator.addAppMenu menuStore0 0
          [("Loader", [favLoadCmd, pubCmd])]) menuStore0.length).items :=
  ⟨by decide,
   C2_favourites_amended.2.1 menuStore0 0 ("Loader") favLoadCmd (by decide),
   C2_favourites_amended.2.2 menuStore0 0 ("Loader") [favLoadCmd, pubCmd] favLoadCmd
     (by decide) (by decide) (by decide) (by decide)⟩

/-- Counterexample to claim C3: the favourites pass does not check the
command type, so a `context_menu`-typed command named as a favourite is
rendered into the top-level menu (index 2 of the handle) — it does not
appear only under the context submenu. -/
theorem C3_context_command_in_top_level_counterexample :
    (Store.menuD ctxFavRun 0).items
      = [Item.submenu 1 ("Ctx"), Item.divider,
         Item.action ("ctxcmd") (some (CbRef.cmd 1))
           (some { app := some 0, type := some ("context_menu") }),
         Item.divider, Item.divider] ∧
    Item.action ("ctxcmd") (some (CbRef.cmd 1))
        (some { app := some 0, type := some ("context_menu") })
      ∈ (Store.menuD ctxFavRun 0).items := by
  constructor
  · decide
  · decide

/-- Claim C3 (amended): the sectioning pass renders `context_menu`-typed
commands only into the context submenu and never files them into an app
group (so they never reach the app-grouped sections); but the favourites
pass ignores the type, so a `context_menu` command matched by a
favourites entry is additionally rendered into the top-level menu, as
the concrete run shows for the context submenu's contents. -/
theorem C3_context_menu_amended :
    (∀ (engine : Engine) (ctxMenu : Nat) (s : Store) (items : List AppCommand),
      partitionPass engine ctxMenu s items
        = ((items.filter (fun c => AppCommand.getType c == "context_menu")).foldl
             (fun st c => AppCommand.addCommandToMenu c st ctxMenu) s,
           (items.filter (fun c => !(AppCommand.getType c == "context_menu"))).foldl
             (fun g c =>
               assocAppend g ((AppCommand.getAppName engine c).getD ("Other Items")) c)
             [])) ∧
    (∀ (engine : Engine) (ctxMenu : Nat) (s : Store) (items : List AppCommand)
        (n : String) (g : List AppCommand) (c : AppCommand),
      (n, g) ∈ (partitionPass engine ctxMenu s items).2 → c ∈ g →
      AppCommand.getType c ≠ "context_menu") ∧
    (Store.menuD ctxFavRun 1).items
      = [Item.divider,
         Item.action ("Jump to Shotgun") (some CbRef.jumpToSg) none,
         Item.divider,
         Item.action ("ctxcmd") (some (CbRef.cmd 1))
           (some { app := some 0, type := some ("context_menu") })] :=
  ⟨partitionPass_eq, partitionPass_groups_no_ctx, by decide⟩

/-- Witness for C3 (amended): the no-`context_menu`-in-groups conjunct
applied to a concrete sectioning run. -/
theorem C3_context_menu_amended_witness :
    (("Loader" : String), [loadCmdA]) ∈ (partitionPass loaderEngine 1 menuStore0 [loadCmdA]).2 ∧
    loadCmdA ∈ [loadCmdA] ∧
    AppCommand.getType loadCmdA ≠ "context_menu" :=
  ⟨by decide, by decide,
   C3_context_menu_amended.2.1 loaderEngine 1 menuStore0 [loadCmdA] ("Loader") [loadCmdA]
     loadCmdA (by decide) (by decide)⟩

/-- Claim C4: the deferred-callback wrapper accepts and discards any
arguments, schedules exactly one task for a later event-loop tick
without executing anything now, and when the scheduled execution runs a
callback that raises, the exception is caught, logged with the engine
logger together with the exception, and never propagated. -/
theorem C4_deferred_callback_swallows_exceptions :
    ∀ (cb : Except String Unit) (args args' : List PyVal)
      (scheduled : List (Except String Unit)) (log : List (String × Option String)),
      Callback.call cb args scheduled = scheduled ++ [cb] ∧
      Callback.call cb args scheduled = Callback.call cb args' scheduled ∧
      (executeWithinExceptionTrap cb log).1 = Except.ok () ∧
      (∀ e : String, cb = Except.error e →
        (executeWithinExceptionTrap cb log).2
          = log ++ [("An exception was raised from Toolkit", some e)]) := by
  intro cb args args' scheduled log
  refine ⟨rfl, rfl, ?_, ?_⟩
  · cases cb with
    | ok u => cases u; rfl
    | error e => rfl
  · intro e he
    subst he
    rfl

/-- Witness for C4: a raising callback at concrete inputs — the trap
returns normally and the exception is logged. -/
theorem C4_deferred_callback_swallows_exceptions_witness :
    (executeWithinExceptionTrap (Except.error ("boom")) []).1 = Except.ok () ∧
    (executeWithinExceptionTrap (Except.error ("boom")) []).2
      = [("An exception was raised from Toolkit", some "boom")] :=
  ⟨(C4_deferred_callback_swallows_exceptions (Except.error ("boom")) [PyVal.int 7] []
      [] []).2.2.1,
   (C4_deferred_callback_swallows_exceptions (Except.error ("boom")) [PyVal.int 7] []
      [] []).2.2.2 "boom" rfl⟩

/-- Claim C5: `create_menu` with `disabled=True` clears the previous
contents of the handle and leaves exactly one entry — an empty
"Sgtk is disabled." submenu — with no dividers, no context submenu and
no command entries; exactly one menu is created. -/
theorem C5_disabled_menu_single_entry (g : MenuGenerator) (s : Store) (h : Nat)
    (hh : g.handle = some h) (hlt : h < s.length) :
    (Store.menuD (MenuGenerator.createMenu g s true) h).items
        = [Item.submenu s.length ("Sgtk is disabled.")] ∧
    (Store.menuD (MenuGenerator.createMenu g s true) s.length).items = [] ∧
    (MenuGenerator.createMenu g s true).length = s.length + 1 := by
  have hrun : MenuGenerator.createMenu g s true
      = (Store.addMenuTo (Store.clearMenu s h) ("Sgtk is disabled.") h).1 := by
    simp only [MenuGenerator.createMenu, hh]
    simp
  have hform : (Store.addMenuTo (Store.clearMenu s h) ("Sgtk is disabled.") h).1
      = Store.appendItem
          (Store.clearMenu s h
            ++ ([{ title := "Sgtk is disabled.", items := [], enabled := true }] : Store))
          h
          (Item.submenu (Store.clearMenu s h).length ("Sgtk is disabled.")) := rfl
  rw [hrun, hform]
  have hlc : (Store.clearMenu s h).length = s.length := length_clearMenu s h
  have hlt2 : h < (Store.clearMenu s h
      ++ ([{ title := "Sgtk is disabled.", items := [], enabled := true }] : Store)).length := by
    rw [List.length_append, hlc]
    simp
    omega
  refine ⟨?_, ?_, ?_⟩
  · rw [menuD_appendItem_self _ hlt2]
    rw [menuD_append_lt _ (by rw [hlc]; exact hlt)]
    rw [menuD_clearMenu_self hlt, hlc]
    simp
  · rw [menuD_appendItem_ne _ (Nat.ne_of_lt hlt)]
    rw [← hlc, menuD_concat_self]
  · rw [length_appendItem, List.length_append, hlc]
    simp

/-- Witness for C5: a handle full of stale entries is cleared down to
the single empty "Sgtk is disabled." submenu. -/
theorem C5_disabled_menu_single_entry_witness :
    ({ engine := loaderEngine, menuName := "menu", handle := some 0 } : MenuGenerator).handle
        = some 0 ∧
    0 < junkStore.length ∧
    (Store.menuD
        (MenuGenerator.createMenu
          { engine := loaderEngine, menuName := "menu", handle := some 0 } junkStore true)
        0).items
      = [Item.submenu junkStore.length ("Sgtk is disabled.")] ∧
    (Store.menuD
        (MenuGenerator.createMenu
          { engine := loaderEngine, menuName := "menu", handle := some 0 } junkStore true)
        junkStore.length).items = [] ∧
    (MenuGenerator.createMenu
        { engine := loaderEngine, menuName := "menu", handle := some 0 } junkStore true).length
      = junkStore.length + 1 :=
  ⟨rfl, by decide,
   (C5_disabled_menu_single_entry
     { engine := loaderEngine, menuName := "menu", handle := some 0 } junkStore 0 rfl
     (by decide)).1,
   (C5_disabled_menu_single_entry
     { engine := loaderEngine, menuName := "menu", handle := some 0 } junkStore 0 rfl
     (by decide)).2.1,
   (C5_disabled_menu_single_entry
     { engine := loaderEngine, menuName := "menu", handle := some 0 } junkStore 0 rfl
     (by decide)).2.2⟩

/-- Helper: the single-command-group branch of `_add_app_menu` as one
equation — render directly unless the command is a favourite. -/
theorem addAppMenu_single_if (s : Store) (handle : Nat) (name : String)
    (cmd : AppCommand) :
    MenuGenerator.addAppMenu s handle [(name, [cmd])]
      = Store.addDivider
          (if cmd.favourite then s else AppCommand.addCommandToMenu cmd s handle)
          handle := by
  by_cases hc : cmd.favourite = true
  · rw [addAppMenu_single_fav s handle name cmd hc, if_pos hc]
  · have hc' : cmd.favourite = false := by
      revert hc; cases cmd.favourite <;> simp
    rw [addAppMenu_single_nonfav s handle name cmd hc', if_neg hc]

/-- Counterexample to claim C6: a group with exactly one command whose
command is a favourite is NOT added to the top-level menu —
`_add_app_menu` appends only the trailing divider, leaving no action
entry at all. -/
theorem C6_single_favourite_group_counterexample :
    MenuGenerator.addAppMenu menuStore0 0 [("Loader", [favLoadCmd])]
      = [{ title := "menu", items := [Item.divider], enabled := true }] ∧
    (Store.menuD (MenuGenerator.addAppMenu menuStore0 0 [("Loader", [favLoadCmd])]) 0).items.filter
        isActionItem = [] := by
  constructor
  · decide
  · decide

/-- Claim C6 (amended): `create_menu` sorts the commands ascending by
name; `_add_app_menu` processes the group labels in ascending order (the
iterated key list is sorted and a permutation of the group keys); a
group with more than one command becomes a submenu titled with the group
name holding the group's commands in name order; and a group with
exactly one command is added directly to the top-level menu unless that
command was already rendered as a favourite, in which case it is
skipped. -/
theorem C6_sorting_grouping_amended :
    (∀ engine : Engine,
      List.Pairwise (fun a b => nameLE a b = true) (buildMenuItems engine)) ∧
    (∀ byApp : List (String × List AppCommand),
      List.Pairwise (fun a b => strLE a b = true) (sortedKeys byApp)
        ∧ List.Perm (sortedKeys byApp) (byApp.map (fun p => p.1))) ∧
    (∀ (s : Store) (handle : Nat) (name : String) (cmds : List AppCommand),
      cmds.length > 1 →
      MenuGenerator.addAppMenu s handle [(name, cmds)]
          = Store.addDivider
              ((pySort nameLE cmds).foldl
                (fun st c => AppCommand.addCommandToMenu c st s.length)
                (Store.addMenuTo s name handle).1)
              handle
        ∧ List.Pairwise (fun a b => nameLE a b = true) (pySort nameLE cmds)) ∧
    (∀ (s : Store) (handle : Nat) (name : String) (cmds : List AppCommand),
      handle < s.length → cmds.length > 1 →
      (∀ d ∈ cmds, pySplitSlash d.name = [d.name]) →
      Store.menuD (MenuGenerator.addAppMenu s handle [(name, cmds)]) s.length
        = { title := name,
            items := (pySort nameLE cmds).map
              (fun c => Item.action c.name (some c.callback) (some c.props)),
            enabled := true }) ∧
    (∀ (s : Store) (handle : Nat) (name : String) (cmd : AppCommand),
      MenuGenerator.addAppMenu s handle [(name, [cmd])]
        = Store.addDivider
            (if cmd.favourite then s else AppCommand.addCommandToMenu cmd s handle)
            handle) := by
  refine ⟨?_, ?_, ?_, addAppMenu_multi_items, addAppMenu_single_if⟩
  · intro engine
    exact pairwise_pySort nameLE nameLE_total (fun a b c h1 h2 => nameLE_trans h1 h2) _
  · intro byApp
    exact ⟨pairwise_pySort strLE strLE_total (fun a b c h1 h2 => strLE_trans h1 h2) _,
      pySort_perm strLE _⟩
  · intro s handle name cmds hlen
    exact ⟨addAppMenu_multi s handle name cmds hlen,
      pairwise_pySort nameLE nameLE_total (fun a b c h1 h2 => nameLE_trans h1 h2) cmds⟩

/-- Witness for C6 (amended): the multi-command and single-command group
conjuncts applied at concrete inputs. -/
theorem C6_sorting_grouping_amended_witness :
    ([favLoadCmd, pubCmd] : List AppCommand).length > 1 ∧
    0 < menuStore0.length ∧
    (MenuGenerator.addAppMenu menuStore0 0 [("Loader", [favLoadCmd, pubCmd])]
        = Store.addDivider
            ((pySort nameLE [favLoadCmd, pubCmd]).foldl
              (fun st c => AppCommand.addCommandToMenu c st menuStore0.length)
              (Store.addMenuTo menuStore0 ("Loader") 0).1)
            0
      ∧ List.Pairwise (fun a b => nameLE a b = true) (pySort nameLE [favLoadCmd, pubCmd])) ∧
    Store.menuD (MenuGenerator.addAppMenu menuStore0 0 [("Loader", [favLoadCmd, pubCmd])])
        menuStore0.length
      = { title := "Loader",
          items := (pySort nameLE [favLoadCmd, pubCmd]).map
            (fun c => Item.action c.name (some c.callback) (some c.props)),
          enabled := true } :=
  ⟨by decide, by decide,
   C6_sorting_grouping_amended.2.2.1 menuStore0 0 ("Loader") [favLoadCmd, pubCmd] (by decide),
   C6_sorting_grouping_amended.2.2.2.1 menuStore0 0 ("Loader") [favLoadCmd, pubCmd]
     (by decide) (by decide) (by decide)⟩

/-- Claim C7 evaluated on the code: the "Jump to File System" entry is
added to the context submenu exactly when the context has filesystem
locations, and `_jump_to_fs` launches one command per location —
`xdg-open` per location on Linux and `cmd.exe /C start` on Windows, but
on macOS the program token is the literal string `open "%s"` (the `%s`
placeholder is never formatted), not the `open` command the spec
intends. -/
theorem C7_jump_to_fs_macos_args_bug :
    (MenuGenerator.addContextMenu
        { engine := { contextName := "Ctx", filesystemLocations := [] },
          menuName := "m", handle := some 0 }
        menuStore0 0).1
      = [{ title := "menu", items := [Item.submenu 1 "Ctx"], enabled := true },
         { title := "Ctx",
           items := [Item.divider,
                     Item.action ("Jump to Shotgun") (some CbRef.jumpToSg) none,
                     Item.divider],
           enabled := true }] ∧
    (MenuGenerator.addContextMenu
        { engine := { contextName := "Ctx", filesystemLocations := ["/tmp/p"] },
          menuName := "m", handle := some 0 }
        menuStore0 0).1
      = [{ title := "menu", items := [Item.submenu 1 "Ctx"], enabled := true },
         { title := "Ctx",
           items := [Item.divider,
                     Item.action ("Jump to Shotgun") (some CbRef.jumpToSg) none,
                     Item.action ("Jump to File System") (some CbRef.jumpToFs) none,
                     Item.divider],
           enabled := true }] ∧
    jumpToFs ("linux2") ["/a", "/b"] (fun _ => "")
      = Except.ok ([["xdg-open", "/a"], ["xdg-open", "/b"]],
                   [["xdg-open", "/a"], ["xdg-open", "/b"]]) ∧
    jumpToFs ("win32") ["/c"] (fun _ => "")
      = Except.ok ([["cmd.exe", "/C", "start", "\"Folder /c\""]],
                   [["cmd.exe", "/C", "start", "\"Folder /c\""]]) ∧
    jumpToFs ("darwin") ["/tmp/proj"] (fun _ => "")
      = Except.ok ([["open \"%s\"", "/tmp/proj"]], [["open \"%s\"", "/tmp/proj"]]) ∧
    (["open \"%s\"", "/tmp/proj"].headD ("") ≠ "open") :=
  ⟨by decide, by decide, rfl, rfl, rfl, by decide⟩

/-- Claim C8: on a platform that is neither Linux nor macOS nor Windows,
`_jump_to_fs` (with at least one filesystem location to visit) raises an
exception whose message names the unsupported platform, and the
exception propagates out of the whole call. -/
theorem C8_unsupported_platform_raises (system : String)
    (output : List String → String) (loc : String) (rest : List String)
    (h1 : is_linux system = false) (h2 : is_macos system = false)
    (h3 : is_windows system = false) :
    jumpToFs system (loc :: rest) output
      = Except.error ("Platform \x27" ++ system ++ "\x27 is not supported.") :=
  jumpToFs_unsupported output loc rest h1 h2 h3

/-- Witness for C8: the error raised on `sunos5`. -/
theorem C8_unsupported_platform_raises_witness :
    is_linux ("sunos5") = false ∧ is_macos ("sunos5") = false ∧
    is_windows ("sunos5") = false ∧
    jumpToFs ("sunos5") ["/a"] (fun _ => "")
      = Except.error ("Platform \x27sunos5\x27 is not supported.") :=
  ⟨by decide, by decide, by decide,
   C8_unsupported_platform_raises ("sunos5") (fun _ => "") ("/a") [] (by decide)
     (by decide) (by decide)⟩

/-- Claim C9: for an `exec_path` that contains `Blender.app` but does
not match the version regex, `_get_executable_version` reaches the macOS
branch, whose first statement reads the undefined name
`executable_path` (the parameter is `exec_path`), so the call fails
with a `NameError` instead of returning a version string. -/
theorem C9_undefined_name_in_macos_branch (exec_path : String)
    (dflt : Option String) (fsIsDir : String → Bool)
    (fsListDir : String → List String)
    (hsub : containsSubstring ("Blender.app").data exec_path.data = true)
    (hnov : versionSearch exec_path.data = none) :
    getExecutableVersion fsIsDir fsListDir exec_path dflt
      = Except.error (PyExc.nameError ("executable_path")) := by
  unfold getExecutableVersion
  rw [hnov]
  simp [hsub]

/-- Witness for C9: the stock macOS install path. -/
theorem C9_undefined_name_in_macos_branch_witness :
    containsSubstring ("Blender.app").data
        ("/Applications/Blender.app/Contents/MacOS/Blender").data = true ∧
    versionSearch ("/Applications/Blender.app/Contents/MacOS/Blender").data = none ∧
    getExecutableVersion (fun _ => false) (fun _ => [])
        ("/Applications/Blender.app/Contents/MacOS/Blender") none
      = Except.error (PyExc.nameError ("executable_path")) :=
  ⟨by decide, by decide,
   C9_undefined_name_in_macos_branch ("/Applications/Blender.app/Contents/MacOS/Blender")
     none (fun _ => false) (fun _ => []) (by decide) (by decide)⟩

/-- Claim C10: on every supported platform the value compared against 0
is the captured output string of `subprocess.check_output`, and a
Python 3 `str != int` comparison is always true; hence every location's
launch is recorded as failed — the failure log equals the launch list. -/
theorem C10_failed_launch_always_logged (system : String)
    (locations : List String) (output : List String → String)
    (h : is_linux system = true ∨ is_macos system = true ∨ is_windows system = true) :
    (∀ out : String, pyNe (PyVal.str out) (PyVal.int 0) = true) ∧
    jumpToFs system locations output
      = Except.ok (locations.map (fsArgsF system), locations.map (fsArgsF system)) :=
  ⟨fun _ => rfl, jumpToFs_supported locations output h⟩

/-- Witness for C10: on Linux with two locations and a successful
(empty) captured output, both launches are still logged as failed. -/
theorem C10_failed_launch_always_logged_witness :
    is_linux ("linux2") = true ∧
    (pyNe (PyVal.str ("")) (PyVal.int 0) = true ∧
     jumpToFs ("linux2") ["/a", "/b"] (fun _ => "ok")
       = Except.ok ((["/a", "/b"].map (fsArgsF ("linux2"))),
                    (["/a", "/b"].map (fsArgsF ("linux2"))))) :=
  ⟨by decide,
   ⟨(C10_failed_launch_always_logged ("linux2") ["/a", "/b"] (fun _ => "ok")
       (Or.inl (by decide))).1 "",
    (C10_failed_launch_always_logged ("linux2") ["/a", "/b"] (fun _ => "ok")
       (Or.inl (by decide))).2⟩⟩

end TkBlender
